import Mathlib

/-!
Verification development for the `docln_fetch` web-novel crawler.

The Rust sources are shallowly embedded in Lean:
pure logic is translated function-for-function; external libraries
(the `scraper` DOM, the `regex` engine, the `linkify` link finder, the
HTTP client) appear as explicit function parameters; fallible Rust
functions returning `anyhow::Result` become `Except String`.
-/

/-- Universal extraction result (`src/extractor.rs`, `enum Value`):
empty, a single string, or an ordered list of strings. -/
inductive Value where
  | empty : Value
  | single (s : String) : Value
  | multiple (vs : List String) : Value
deriving DecidableEq, Repr

/-- The accumulation step shared by every `extract_all` implementation
(`src/extractor/list.rs`, `next.rs`, `current.rs`, `combine.rs`):
`Single(v)` is pushed, `Multiple(vs)` is extended, `Empty` adds nothing. -/
def mergeInto (results : List String) (v : Value) : List String :=
  match v with
  | Value.empty => results
  | Value.single s => results ++ [s]
  | Value.multiple vs => results ++ vs

/-- The final wrap used by every `extract_all` (and by `List::extract`):
an empty accumulator yields `Empty`, otherwise `Multiple`. -/
def wrapMultiple (results : List String) : Value :=
  if results.isEmpty then Value.empty else Value.multiple results

/-- The final wrap used by `Combine`: an empty accumulator yields `Empty`,
otherwise the pieces joined with the separator as one `Single`. -/
def wrapCombine (separator : String) (combined : List String) : Value :=
  if combined.isEmpty then Value.empty
  else Value.single (String.intercalate separator combined)

/-- The external `scraper` DOM and `linkify` crates, abstracted as
operations over an opaque element type `α` and selector type `σ`:
`select` lists the descendant elements matching a selector in document
order, `attr` reads an attribute, `texts` is the text-node iterator,
`innerHtml` serializes a subtree, `nextSiblingElement` is
`next_sibling_element()` (skips non-element siblings),
`nextSiblingWrapped` is `next_sibling()` followed by `ElementRef::wrap`
(the immediate sibling, only when it is an element), and `findLinks`
is `linkify::LinkFinder` returning the embedded URL substrings. -/
structure Scrape (α : Type) (σ : Type) where
  select : α → σ → List α
  attr : α → String → Option String
  texts : α → List String
  innerHtml : α → String
  nextSiblingElement : α → Option α
  nextSiblingWrapped : α → Option α
  findLinks : String → List String

/-- The closed set of extractor variants
(`src/extractor/{attr,text,html,list,next,current,combine,url}.rs`).
`combine` holds the fields of its nested `List` extractor; `url` holds
the fields of its nested `Attr` extractor, as in the Rust structs. -/
inductive Extractor (σ : Type) where
  | attr (selector : Option σ) (name : String) : Extractor σ
  | text (selector : Option σ) : Extractor σ
  | html (selector : σ) : Extractor σ
  | list (selector : σ) (item : Extractor σ) : Extractor σ
  | next (current : σ) (condition : Option String) (next : Extractor σ) : Extractor σ
  | current (base : σ) (condition : Option String) (current : Extractor σ) : Extractor σ
  | combine (separator : String) (itemsSelector : σ) (itemsItem : Extractor σ) : Extractor σ
  | url (selector : Option σ) (name : String) : Extractor σ

/-- `Attr::extract`: narrow by the optional sub-selector (first match),
then read the named attribute; a present attribute is `Single`, anything
missing is `Empty`. -/
def attrExtract {α σ : Type} (d : Scrape α σ) (selector : Option σ) (name : String)
    (element : α) : Value :=
  let el := match selector with
    | some s => (d.select element s).head?
    | none => some element
  match el.bind (fun e => d.attr e name) with
  | some v => Value.single v
  | none => Value.empty

/-- `Attr::extract_all`: with a sub-selector, read the attribute off every
match (missing attributes are skipped); without one, off the element
itself; wrap. -/
def attrExtractAll {α σ : Type} (d : Scrape α σ) (selector : Option σ) (name : String)
    (element : α) : Value :=
  let results := match selector with
    | some s => (d.select element s).filterMap (fun e => d.attr e name)
    | none =>
      match d.attr element name with
      | some a => [a]
      | none => []
  wrapMultiple results

/-- The flattened text of an element, `element.text().collect::<String>()`. -/
def collectText {α σ : Type} (d : Scrape α σ) (element : α) : String :=
  String.join (d.texts element)

/-- `Text::extract`: narrow by the optional sub-selector (first match),
collect the text; blank text yields `Empty`. -/
def textExtract {α σ : Type} (d : Scrape α σ) (selector : Option σ) (element : α) : Value :=
  let el := match selector with
    | some s => (d.select element s).head?
    | none => some element
  match el with
  | some e =>
    let t := collectText d e
    if t.isEmpty then Value.empty else Value.single t
  | none => Value.empty

/-- `Text::extract_all`: with a sub-selector, push every match's text
(blank or not); without one, push the element's own text; wrap. -/
def textExtractAll {α σ : Type} (d : Scrape α σ) (selector : Option σ) (element : α) : Value :=
  let results := match selector with
    | some s => (d.select element s).map (fun e => collectText d e)
    | none => [collectText d element]
  wrapMultiple results

/-- `Html::extract`: the first match's serialized markup, else `Empty`. -/
def htmlExtract {α σ : Type} (d : Scrape α σ) (selector : σ) (element : α) : Value :=
  match ((d.select element selector).head?).map (fun e => d.innerHtml e) with
  | some h => Value.single h
  | none => Value.empty

/-- `Html::extract_all`: every match's serialized markup; wrap. -/
def htmlExtractAll {α σ : Type} (d : Scrape α σ) (selector : σ) (element : α) : Value :=
  wrapMultiple ((d.select element selector).map (fun e => d.innerHtml e))

/-- The candidate filter of `Next` and `Current`:
`base_elem.text().any(|t| t.contains(cond))`, vacuously true without a
condition. -/
def condMatches {α σ : Type} (d : Scrape α σ) (condition : Option String) (el : α) : Bool :=
  match condition with
  | none => true
  | some c => (d.texts el).any (fun t => decide (c.data <:+: t.data))

/-- The URL-substring scan of `Url`: `Single` text is scanned once,
`Multiple` texts are scanned left to right, `Empty` yields nothing. -/
def collectLinks (links : String → List String) (v : Value) : List String :=
  match v with
  | Value.single t => links t
  | Value.multiple ts => ts.flatMap links
  | Value.empty => []

/-- The final match of `Url::extract`: 0 matches yield `Empty`, exactly 1
yields `Single`, more yield `Multiple`. -/
def wrapUrls (urls : List String) : Value :=
  match urls with
  | [] => Value.empty
  | [u] => Value.single u
  | us => Value.multiple us

mutual

/-- `Extractor::extract` over every variant, dispatched structurally as
`#[typetag::deserialize(tag = "type")]` dispatches dynamically.
The `for`-loop-with-early-return of `Next::extract` (resp.
`Current::extract`) returns the sub-extraction on the next sibling of the
first condition-passing candidate that has one (resp. on the first
condition-passing candidate), rendered here with `filter`/`filterMap` and
`head?`; `Combine::extract` runs its nested `List` extractor's `extract`,
whose body is inlined. -/
def extract {α σ : Type} (d : Scrape α σ) : Extractor σ → α → Value
  | Extractor.attr selector name, element => attrExtract d selector name element
  | Extractor.text selector, element => textExtract d selector element
  | Extractor.html selector, element => htmlExtract d selector element
  | Extractor.list selector item, element =>
    match (d.select element selector).head? with
    | none => Value.empty
    | some container => wrapMultiple (mergeInto [] (extractAll d item container))
  | Extractor.next current condition nextE, element =>
    match (((d.select element current).filter (fun b => condMatches d condition b)).filterMap
        (fun b => d.nextSiblingElement b)).head? with
    | some sib => extract d nextE sib
    | none => Value.empty
  | Extractor.current base condition currentE, element =>
    match ((d.select element base).filter (fun b => condMatches d condition b)).head? with
    | some b => extract d currentE b
    | none => Value.empty
  | Extractor.combine separator itemsSelector itemsItem, element =>
    let itemsValue :=
      match (d.select element itemsSelector).head? with
      | none => Value.empty
      | some container => wrapMultiple (mergeInto [] (extractAll d itemsItem container))
    wrapCombine separator (mergeInto [] itemsValue)
  | Extractor.url selector name, element =>
    let value := attrExtract d selector name element
    if name = "href" ∨ name = "src" then value
    else wrapUrls (collectLinks d.findLinks value)
termination_by e _ => sizeOf e

/-- `Extractor::extract_all` over every variant; `Combine::extract_all`
runs its nested `List` extractor's `extract_all`, whose body is inlined. -/
def extractAll {α σ : Type} (d : Scrape α σ) : Extractor σ → α → Value
  | Extractor.attr selector name, element => attrExtractAll d selector name element
  | Extractor.text selector, element => textExtractAll d selector element
  | Extractor.html selector, element => htmlExtractAll d selector element
  | Extractor.list selector item, element =>
    wrapMultiple ((d.select element selector).foldl
      (fun acc container => mergeInto acc (extractAll d item container)) [])
  | Extractor.next current condition nextE, element =>
    wrapMultiple ((d.select element current).foldl
      (fun acc base =>
        if condMatches d condition base then
          match d.nextSiblingWrapped base with
          | some sib => mergeInto acc (extract d nextE sib)
          | none => acc
        else acc) [])
  | Extractor.current base condition currentE, element =>
    wrapMultiple ((d.select element base).foldl
      (fun acc b =>
        if condMatches d condition b then mergeInto acc (extract d currentE b)
        else acc) [])
  | Extractor.combine separator itemsSelector itemsItem, element =>
    let itemsValue :=
      wrapMultiple ((d.select element itemsSelector).foldl
        (fun acc container => mergeInto acc (extractAll d itemsItem container)) [])
    wrapCombine separator (mergeInto [] itemsValue)
  | Extractor.url selector name, element =>
    wrapMultiple (collectLinks d.findLinks (attrExtractAll d selector name element))
termination_by e _ => sizeOf e

end

/-- An HTTP response as the downloader observes it
(`src/crawler/downloader.rs`): the status code, the optional
`Retry-After` header, and the decoded body. -/
structure HttpResponse where
  status : Nat
  retryAfter : Option String
  body : String
deriving DecidableEq, Repr

/-- `Downloader::chapter` response classification
(`src/crawler/downloader.rs` lines 195-224): 200 falls through to the
body; 429 without a `Retry-After` header errors with a missing-retry-time
message, and with one errors with a fixed too-many-requests message (the
header's value is only logged); any other status errors with a message
naming the status. -/
def chapterFetch (r : HttpResponse) : Except String String :=
  if r.status = 200 then Except.ok r.body
  else if r.status = 429 then
    match r.retryAfter with
    | none => Except.error "无法获取重试时间"
    | some _ => Except.error "请求过多，已被限制访问"
  else Except.error ("HTTP错误 " ++ toString r.status)

/-- `Downloader::novel_info` (`src/crawler/downloader.rs` lines 155-162):
reads the body of whatever response arrives; the status is never
inspected. -/
def novelInfoFetch (r : HttpResponse) : Except String String :=
  Except.ok r.body

/-- `Downloader::image` (`src/crawler/downloader.rs` lines 165-192):
returns the body bytes of whatever response arrives paired with the
extension taken from the URL path; the status is never inspected (the URL
join, the `jpg` extension default and the `Referer` header do not touch
the response and are summarized in the `extensionFromUrl` argument). -/
def imageFetch (extensionFromUrl : String) (r : HttpResponse) :
    Except String (String × String) :=
  Except.ok (r.body, extensionFromUrl)

/-- The page-level extraction results `chapters_sequential` reads off one
fetched chapter document: `extract_paragraphs`, `extract_title` and
`extract_next_url` applied to the selected content element. -/
structure PageContent where
  paragraphs : Value
  title : Value
  nextUrl : Value

/-- One fetch inside `chapters_sequential`: the transport or decoding can
fail, the `content` selector can match nothing (`无法找到章节内容`), or a
content element is found and its extractions read. -/
inductive FetchOutcome where
  | fail (e : String) : FetchOutcome
  | noContent : FetchOutcome
  | page (p : PageContent) : FetchOutcome

/-- The chapter stub `chapters_sequential` iterates over: only the title
(for the continuation match) matters to the loop. -/
structure ChapterStub where
  title : String

/-- `ContentExtractor::matches_title` (`src/extractor.rs` lines 67-73):
substitute the current title into the configured pattern and run the
external regex engine (`regexIsMatch`, modelling
`Regex::new(..).is_match`). -/
def matchesTitle (regexIsMatch : String → String → Bool) (titlePattern : String)
    (title : String) (target : String) : Bool :=
  regexIsMatch (titlePattern.replace "{title}" title) target

/-- The per-page title resolution in `chapters_sequential`
(`src/crawler/downloader.rs` lines 70-73): a `Single` extracted title is
trimmed, anything else falls back to the chapter stub's title. -/
def resolveTitle (p : PageContent) (chapter : ChapterStub) : String :=
  match p.title with
  | Value.single t => t.trim
  | _ => chapter.title

/-- The loop of `Downloader::chapters_sequential`
(`src/crawler/downloader.rs` lines 45-96), one iteration per chapter stub:
fetch the current next-URL; a transport error or a missing content element
errors out; non-`Single` paragraphs error out (`章节内容提取失败`); a
continuation-matching title appends the paragraphs to the buffer, a
non-matching one flushes the buffer into the results and restarts the
buffer with the paragraphs; a non-`Single` next-URL extraction returns
`Ok` with the results flushed so far, and a `Single` one is joined against
the base URL (`joinUrl`, modelling `Url::join`, `none` being the join
error) before the next iteration. -/
def chaptersSequentialGo (fetch : String → FetchOutcome) (joinUrl : String → Option String)
    (regexIsMatch : String → String → Bool) (titlePattern : String) :
    List ChapterStub → String → String → List String → Except String (List String)
  | [], _, _, results => Except.ok results
  | chapter :: rest, nextUrl, buffer, results =>
    match fetch nextUrl with
    | FetchOutcome.fail e => Except.error e
    | FetchOutcome.noContent => Except.error "无法找到章节内容"
    | FetchOutcome.page p =>
      match p.paragraphs with
      | Value.single paragraphs =>
        let title := resolveTitle p chapter
        let flushed :=
          if matchesTitle regexIsMatch titlePattern chapter.title title then
            (buffer ++ paragraphs, results)
          else (paragraphs, results ++ [buffer])
        match p.nextUrl with
        | Value.single u =>
          match joinUrl u with
          | some u2 => chaptersSequentialGo fetch joinUrl regexIsMatch titlePattern
              rest u2 flushed.1 flushed.2
          | none => Except.error "join"
        | _ => Except.ok flushed.2
      | _ => Except.error "章节内容提取失败"

/-- `Downloader::chapters_sequential` entry: the seed next-URL is joined
against the base URL, then the loop starts with an empty buffer and no
results. -/
def chaptersSequential (fetch : String → FetchOutcome) (joinUrl : String → Option String)
    (regexIsMatch : String → String → Bool) (titlePattern : String)
    (chapters : List ChapterStub) (nextUrl : String) : Except String (List String) :=
  match joinUrl nextUrl with
  | some u => chaptersSequentialGo fetch joinUrl regexIsMatch titlePattern chapters u "" []
  | none => Except.error "join"

/-- Modelled from the spec: the crawler's `Chapter` record (with its index
field) lives in a part of the repository that is not under `src/` — only
its callers in `src/crawler.rs` are. Per the spec's data model, a chapter
carries a 1-based index defining order within its container, a title, a
source URL, an output filename, the list of locally saved image filenames,
and an illustration flag. -/
structure Chapter where
  index : Nat
  title : String
  url : String
  filename : String
  images : List String
  hasIllustrations : Bool
deriving DecidableEq, Repr

/-- Modelled from the spec: the crawler's `Volume` record (with its index
field) is likewise not under `src/`. Per the spec's data model, a volume
carries a 1-based index defining final order, an optional cover, a
synthetic chapter-zero divider page, and its ordered chapters. -/
structure Volume where
  index : Nat
  cover : Option String
  coverChapter : Chapter
  chapters : List Chapter
deriving DecidableEq, Repr

/-- `enum VolOrChap` (`src/epub.rs` lines 15-25): a book's children are
either chapters grouped into volumes or one flat chapter list. -/
inductive VolOrChap where
  | volumes (vs : List Volume) : VolOrChap
  | chapters (cs : List Chapter) : VolOrChap
deriving DecidableEq, Repr

/-- The slice of the `Epub` aggregate (`src/epub.rs`) the orchestrator
claims touch: its children tree. -/
structure Epub where
  children : VolOrChap
deriving DecidableEq, Repr

/-- The collected results of a `TaskManager`'s awaited children
(`VolOrChapTasks` in `src/crawler.rs`): volume tasks yield a volume
payload plus its still-pending chapter results; chapter tasks yield
chapters. `TaskManager::wait` is not under `src/`; its output is modelled
as the task results in an arbitrary (completion) order, which is why every
theorem below quantifies over the order of these lists. -/
inductive VolOrChapResults where
  | volume (ts : List (Volume × List Chapter)) : VolOrChapResults
  | chapter (ts : List Chapter) : VolOrChapResults

/-- `DoclnCrawler::sort_chapters` (`src/crawler.rs` lines 98-102): await
the chapter tasks, then stably sort the collected chapters by their index
(`sort_by_key`). -/
def sortChapters (results : List Chapter) : List Chapter :=
  results.mergeSort (fun a b => a.index ≤ b.index)

/-- `DoclnCrawler::sort_volumes` (`src/crawler.rs` lines 81-96): for each
collected `(volume, chapter_tasks)` pair, in collection order, sort that
volume's chapters and store them in the volume; then stably sort the
volumes by their index. -/
def sortVolumes (results : List (Volume × List Chapter)) : List Volume :=
  (results.map (fun r => { r.1 with chapters := sortChapters r.2 })).mergeSort
    (fun a b => a.index ≤ b.index)

/-- `DoclnCrawler::set_epub_children` (`src/crawler.rs` lines 66-78): the
root's children are the sorted volumes or the sorted chapters, depending
on which kind of tasks were spawned. -/
def setEpubChildren (e : Epub) (tasks : VolOrChapResults) : Epub :=
  match tasks with
  | VolOrChapResults.volume ts => { e with children := VolOrChap.volumes (sortVolumes ts) }
  | VolOrChapResults.chapter ts => { e with children := VolOrChap.chapters (sortChapters ts) }

/-- Modelled from the spec: a deterministic stand-in for the content hash
used by `Processor::write_image`, which is not under `src/`. Only its
determinism (the name is a function of the bytes alone) matters to the
claims; bytes are modelled as a list of byte values. -/
def hashBytes (bytes : List Nat) : Nat :=
  bytes.foldl (fun acc b => acc * 256 + b % 256) 1

/-- Modelled from the spec: the hex rendering of the content hash. -/
def hexHash (bytes : List Nat) : String :=
  String.mk (Nat.toDigits 16 (hashBytes bytes))

/-- The image directory's contents: filename paired with the written
bytes, in write order. -/
structure ImageDir where
  files : List (String × List Nat)
deriving DecidableEq, Repr

/-- Whether a file of that name already exists in the image directory. -/
def fileExists (dir : ImageDir) (name : String) : Bool :=
  dir.files.any (fun f => f.1 == name)

/-- The outcome of one `write_image` call: the returned filename, the
directory afterwards, and how many disk writes were performed. -/
structure WriteImageResult where
  name : String
  dir : ImageDir
  writes : Nat
deriving DecidableEq, Repr

/-- Modelled from the spec: `Processor::write_image(bytes, extension)` is
not under `src/` (only its call sites in `src/crawler.rs` are). Per the
spec, the filename is the hex content-hash plus the extension; if that
exact file already exists the write is skipped and the existing name
returned, otherwise the bytes are written once under that name. -/
def writeImage (dir : ImageDir) (bytes : List Nat) (extension : String) : WriteImageResult :=
  let name := hexHash bytes ++ "." ++ extension
  if fileExists dir name then ⟨name, dir, 0⟩
  else ⟨name, ⟨dir.files ++ [(name, bytes)]⟩, 1⟩

/-- The per-image body of the loop in `DoclnCrawler::chapter_task`
(`src/crawler.rs` lines 227-240), over the state
`(chapter body, chapter image list)`: a failed fetch
(`let Ok .. else { error!(..); continue; }`) leaves the state untouched,
as does a failed write; on success the in-body reference to the source
URL is rewritten to `../Images/<name>` and the name is appended to the
chapter's image list. The image fetch and image write are the fallible
operations `fetchImage` (the downloader) and `writeImg` (the processor),
arbitrary here. -/
def imageStep (fetchImage : String → Except String (List Nat × String))
    (writeImg : List Nat → String → Except String String)
    (st : String × List String) (src : String) : String × List String :=
  match fetchImage src with
  | Except.error _ => st
  | Except.ok (bytes, extension) =>
    match writeImg bytes extension with
    | Except.error _ => st
    | Except.ok name => (st.1.replace src ("../Images/" ++ name), st.2 ++ [name])

/-- `DoclnCrawler::chapter_task` (`src/crawler.rs` lines 217-244): fetch
the chapter document (fallible, propagates), parse its content (fallible,
propagates), walk the discovered image URLs with `imageStep`, write the
chapter body (fallible, propagates), and return the chapter with its
accumulated image list. -/
def chapterTask (fetchChapter : String → Except String String)
    (chapterContent : String → Except String String)
    (chapterSrcs : String → List String)
    (fetchImage : String → Except String (List Nat × String))
    (writeImg : List Nat → String → Except String String)
    (writeChapter : String → Chapter → Except String Unit)
    (chapter : Chapter) : Except String Chapter :=
  match fetchChapter chapter.url with
  | Except.error e => Except.error e
  | Except.ok chapterHtml =>
    match chapterContent chapterHtml with
    | Except.error e => Except.error e
    | Except.ok content0 =>
      let srcs := chapterSrcs content0
      let st := srcs.foldl (imageStep fetchImage writeImg) (content0, chapter.images)
      let chapter2 := { chapter with images := st.2 }
      match writeChapter st.1 chapter2 with
      | Except.error e => Except.error e
      | Except.ok _ => Except.ok chapter2

/-- The slice of a `VolumeExtractor` rule (`src/extractor.rs` lines
115-122) that `get_chapter_config` reads: its nested chapters rule, of
type `κ` (the `ChapterExtractor` rules, opaque here). -/
structure VolumeCfg (κ : Type) where
  chapters : κ

/-- The chapter-rule slice of a site's `BookExtractor` configuration
(`src/extractor.rs` lines 141-153): an optional volumes rule and an
optional flat chapters rule. -/
structure BookCfg (κ : Type) where
  volumes : Option (VolumeCfg κ)
  chapters : Option κ

/-- `SiteConfig::get_chapter_config` (`src/config.rs` lines 186-196): a
volumes rule wins and contributes its nested chapters rule; otherwise the
flat chapters rule, if any. -/
def getChapterConfig {κ : Type} (book : BookCfg κ) : Option κ :=
  match book.volumes with
  | some v => some v.chapters
  | none =>
    match book.chapters with
    | some c => some c
    | none => none

/-- Modelled from the spec: the parser that builds a book's children from
a site configuration is not under `src/` (the superseded
`src/crawler/parser.rs` predates `VolOrChap`). Per the spec, a config with
a volumes rule yields the volume-grouped variant built from the parsed
volumes, a config with only a flat chapters rule yields the flat variant
built from the parsed chapters, and a config with neither yields no
children. -/
def buildChildren {κ : Type} (book : BookCfg κ) (parsedVolumes : List Volume)
    (parsedChapters : List Chapter) : Option VolOrChap :=
  match book.volumes with
  | some _ => some (VolOrChap.volumes parsedVolumes)
  | none =>
    match book.chapters with
    | some _ => some (VolOrChap.chapters parsedChapters)
    | none => none

/-- C5: the Value-merging fold shared by every `extract_all` is an
Empty-identity, order-preserving accumulation: merging `Empty` leaves the
accumulator unchanged, merging `Single(v)` appends exactly `v`, merging
`Multiple(vs)` appends `vs` in left-then-right order, and two `Multiple`s
merge to their concatenation. -/
theorem mergeInto_fold_laws : ∀ (acc : List String) (s : String) (vs xs ys : List String),
    mergeInto acc Value.empty = acc ∧
    mergeInto acc (Value.single s) = acc ++ [s] ∧
    mergeInto acc (Value.multiple vs) = acc ++ vs ∧
    mergeInto (mergeInto [] (Value.multiple xs)) (Value.multiple ys) = xs ++ ys := by
  intro acc s vs xs ys
  refine ⟨rfl, rfl, rfl, ?_⟩
  simp [mergeInto]

/-- C2: `write_image` is idempotent on content: called twice with the same
bytes and extension, it returns the same filename both times, the second
call performs no disk write, and the two calls together perform at most
one write. -/
theorem writeImage_idempotent : ∀ (dir : ImageDir) (bytes : List Nat) (extension : String),
    (writeImage dir bytes extension).name
      = (writeImage (writeImage dir bytes extension).dir bytes extension).name ∧
    (writeImage (writeImage dir bytes extension).dir bytes extension).writes = 0 ∧
    (writeImage dir bytes extension).writes
      + (writeImage (writeImage dir bytes extension).dir bytes extension).writes ≤ 1 := by
  intro dir bytes extension
  by_cases h : fileExists dir (hexHash bytes ++ "." ++ extension)
  · simp [writeImage, h]
  · simp only [writeImage, h, if_false, Bool.false_eq_true, if_neg]
    have h2 : fileExists ⟨dir.files ++ [(hexHash bytes ++ "." ++ extension, bytes)]⟩
        (hexHash bytes ++ "." ++ extension) = true := by
      simp [fileExists]
    simp [h2]

/-- C8: a book's children are exactly one of volume-grouped chapters or a
flat chapter list, never both (the sum type admits no mixed value); a
config with a flat chapters rule and no volumes rule yields the
flat-chapters variant, and a config with a volumes rule and no chapters
rule yields the volumes variant — in both cases `get_chapter_config`
resolves the corresponding chapter rule. -/
theorem volOrChap_exactly_one :
    ∀ {κ : Type} (book : BookCfg κ) (vs : List Volume) (cs : List Chapter)
      (voc : VolOrChap) (c : κ) (v : VolumeCfg κ),
    ((∃ l, voc = VolOrChap.volumes l) ↔ ¬ ∃ l, voc = VolOrChap.chapters l) ∧
    (book.volumes = none → book.chapters = some c →
      buildChildren book vs cs = some (VolOrChap.chapters cs) ∧
      getChapterConfig book = some c) ∧
    (book.volumes = some v → book.chapters = none →
      buildChildren book vs cs = some (VolOrChap.volumes vs) ∧
      getChapterConfig book = some v.chapters) := by
  intro κ book vs cs voc c v
  refine ⟨?_, ?_, ?_⟩
  · cases voc with
    | volumes l => simp
    | chapters l => simp
  · intro hv hc
    simp [buildChildren, getChapterConfig, hv, hc]
  · intro hv hc
    simp [buildChildren, getChapterConfig, hv, hc]

/-- C8 witness: a concrete flat-chapters config and a concrete volumes
config instantiating the theorem. -/
theorem volOrChap_exactly_one_witness :
    buildChildren (⟨none, some 0⟩ : BookCfg Nat) [] [] = some (VolOrChap.chapters []) ∧
    buildChildren (⟨some ⟨1⟩, none⟩ : BookCfg Nat) [] [] = some (VolOrChap.volumes []) := by
  refine ⟨((volOrChap_exactly_one (⟨none, some 0⟩ : BookCfg Nat) [] []
      (VolOrChap.chapters []) 0 ⟨1⟩).2.1 rfl rfl).1, ?_⟩
  exact ((volOrChap_exactly_one (⟨some ⟨1⟩, none⟩ : BookCfg Nat) [] []
      (VolOrChap.chapters []) 0 ⟨1⟩).2.2 rfl rfl).1

/-- C3 counterexample: the claim fails on the code. An image fetch with a
500 response succeeds with the body instead of being a fatal network
error, and the rate-limited failure of the chapter fetch does not carry
the `Retry-After` value — the error is the same fixed message whether the
header says `30` or `999`. -/
theorem downloader_status_counterexample :
    imageFetch "jpg" ⟨500, none, "body"⟩ = Except.ok ("body", "jpg") ∧
    novelInfoFetch ⟨500, none, "body"⟩ = Except.ok "body" ∧
    chapterFetch ⟨429, some "30", "b"⟩ = chapterFetch ⟨429, some "999", "b"⟩ ∧
    chapterFetch ⟨429, some "30", "b"⟩ = Except.error "请求过多，已被限制访问" := by
  refine ⟨rfl, rfl, ?_, ?_⟩ <;> simp [chapterFetch]

/-- C3 amended: only the chapter fetch classifies the HTTP status — 200
returns the body; 429 with a `Retry-After` header yields a fixed
rate-limited error (the header value is logged, not carried) and without
one a distinct missing-retry-time error; any other status yields an error
naming the status. The document and image fetches return the body without
inspecting the status. -/
theorem downloader_status_classification :
    ∀ (r : HttpResponse) (v : String) (extension : String),
    (r.status = 200 → chapterFetch r = Except.ok r.body) ∧
    (r.status = 429 → r.retryAfter = some v →
      chapterFetch r = Except.error "请求过多，已被限制访问") ∧
    (r.status = 429 → r.retryAfter = none →
      chapterFetch r = Except.error "无法获取重试时间") ∧
    (r.status ≠ 200 → r.status ≠ 429 →
      chapterFetch r = Except.error ("HTTP错误 " ++ toString r.status)) ∧
    novelInfoFetch r = Except.ok r.body ∧
    imageFetch extension r = Except.ok (r.body, extension) := by
  intro r v extension
  refine ⟨?_, ?_, ?_, ?_, rfl, rfl⟩
  · intro h; simp [chapterFetch, h]
  · intro h hr; simp [chapterFetch, h, hr]
  · intro h hr; simp [chapterFetch, h, hr]
  · intro h h2; simp [chapterFetch, h, h2]

/-- C3 amended witness: the classification evaluated at concrete 200, 429
and 500 responses. -/
theorem downloader_status_classification_witness :
    chapterFetch ⟨200, none, "x"⟩ = Except.ok "x" ∧
    chapterFetch ⟨429, some "30", "x"⟩ = Except.error "请求过多，已被限制访问" ∧
    chapterFetch ⟨500, none, "x"⟩ = Except.error ("HTTP错误 " ++ toString (500 : Nat)) := by
  refine ⟨(downloader_status_classification ⟨200, none, "x"⟩ "30" "jpg").1 rfl,
    (downloader_status_classification ⟨429, some "30", "x"⟩ "30" "jpg").2.1 rfl rfl,
    (downloader_status_classification ⟨500, none, "x"⟩ "30" "jpg").2.2.2.1 (by decide) (by decide)⟩

/-- Chapters sorted ascending by their index field. -/
def chaptersSortedByIndex (cs : List Chapter) : Prop :=
  cs.Pairwise (fun a b => a.index ≤ b.index)

/-- Volumes sorted ascending by their index field. -/
def volumesSortedByIndex (vs : List Volume) : Prop :=
  vs.Pairwise (fun a b => a.index ≤ b.index)

/-- The root's collected children are index-sorted, volumes recursively
so. -/
def rootChildrenSorted : VolOrChap → Prop
  | VolOrChap.volumes vs =>
    volumesSortedByIndex vs ∧ vs.Forall (fun v => chaptersSortedByIndex v.chapters)
  | VolOrChap.chapters cs => chaptersSortedByIndex cs

/-- Stable sort by a natural-number key yields a list pairwise ordered by
that key. -/
theorem pairwise_mergeSort_key {α : Type} (key : α → Nat) (l : List α) :
    (l.mergeSort (fun a b => key a ≤ key b)).Pairwise (fun a b => key a ≤ key b) := by
  have h := @List.sorted_mergeSort α (fun a b : α => key a ≤ key b)
    (fun a b c hab hbc => by
      simp only [decide_eq_true_eq] at *
      omega)
    (fun a b => by
      simp only [Bool.or_eq_true, decide_eq_true_eq]
      omega) l
  exact h.imp (fun hab => by simpa using hab)

/-- C1: for every collected result list — in whatever completion order the
spawned tasks delivered it — the orchestrator's collection is index-sorted:
`sort_chapters` yields chapters ascending by index (a permutation of what
was collected), `sort_volumes` yields volumes ascending by index with each
volume's chapters ascending by index, and `set_epub_children` leaves the
root's children index-sorted in both the volumes and the flat-chapters
mode. -/
theorem collection_sorted_by_index :
    ∀ (crs : List Chapter) (vrs : List (Volume × List Chapter)) (e : Epub)
      (tasks : VolOrChapResults),
    chaptersSortedByIndex (sortChapters crs) ∧
    (sortChapters crs).Perm crs ∧
    volumesSortedByIndex (sortVolumes vrs) ∧
    (sortVolumes vrs).Forall (fun v => chaptersSortedByIndex v.chapters) ∧
    rootChildrenSorted (setEpubChildren e tasks).children := by
  have hc : ∀ (crs : List Chapter), chaptersSortedByIndex (sortChapters crs) := by
    intro crs
    unfold chaptersSortedByIndex sortChapters
    exact pairwise_mergeSort_key (fun c : Chapter => c.index) crs
  have hv : ∀ (vrs : List (Volume × List Chapter)), volumesSortedByIndex (sortVolumes vrs) := by
    intro vrs
    unfold volumesSortedByIndex sortVolumes
    exact pairwise_mergeSort_key (fun v : Volume => v.index) _
  have hvc : ∀ (vrs : List (Volume × List Chapter)),
      (sortVolumes vrs).Forall (fun v => chaptersSortedByIndex v.chapters) := by
    intro vrs
    rw [List.forall_iff_forall_mem]
    intro v hmem
    have hperm := List.mergeSort_perm
      ((vrs.map (fun r => { r.1 with chapters := sortChapters r.2 })))
      (fun a b : Volume => a.index ≤ b.index)
    have hmem2 : v ∈ vrs.map (fun r => { r.1 with chapters := sortChapters r.2 }) :=
      hperm.mem_iff.mp hmem
    obtain ⟨r, _, rfl⟩ := List.mem_map.mp hmem2
    exact hc r.2
  intro crs vrs e tasks
  refine ⟨hc crs, List.mergeSort_perm crs _, hv vrs, hvc vrs, ?_⟩
  cases tasks with
  | volume ts => exact ⟨hv ts, hvc ts⟩
  | chapter ts => exact hc ts

/-- C7: during `chapter_task`, per-image errors never escape: whatever the
image fetch and image write do, as long as the chapter fetch, the content
parse and the chapter write succeed, the chapter completes with `Ok`; a
failed image fetch or image write leaves the body (still holding the
remote URL) and the image list untouched for that image, while a
successful one rewrites the in-body reference to `../Images/<name>` and
records the name. -/
theorem chapterTask_image_errors_isolated :
    ∀ (fetchChapter : String → Except String String)
      (chapterContent : String → Except String String)
      (chapterSrcs : String → List String)
      (fetchImage : String → Except String (List Nat × String))
      (writeImg : List Nat → String → Except String String)
      (writeChapter : String → Chapter → Except String Unit)
      (chapter : Chapter) (chapterHtml content0 e : String)
      (st : String × List String) (src : String),
    (fetchChapter chapter.url = Except.ok chapterHtml →
      chapterContent chapterHtml = Except.ok content0 →
      (∀ c ch, writeChapter c ch = Except.ok ()) →
      chapterTask fetchChapter chapterContent chapterSrcs fetchImage writeImg
          writeChapter chapter =
        Except.ok { chapter with
          images := ((chapterSrcs content0).foldl (imageStep fetchImage writeImg)
            (content0, chapter.images)).2 }) ∧
    (fetchImage src = Except.error e →
      imageStep fetchImage writeImg st src = st) ∧
    (∀ bytes extension, fetchImage src = Except.ok (bytes, extension) →
      writeImg bytes extension = Except.error e →
      imageStep fetchImage writeImg st src = st) ∧
    (∀ bytes extension name, fetchImage src = Except.ok (bytes, extension) →
      writeImg bytes extension = Except.ok name →
      imageStep fetchImage writeImg st src =
        (st.1.replace src ("../Images/" ++ name), st.2 ++ [name])) := by
  intro fetchChapter chapterContent chapterSrcs fetchImage writeImg writeChapter
    chapter chapterHtml content0 e st src
  refine ⟨?_, ?_, ?_, ?_⟩
  · intro h1 h2 h3
    simp [chapterTask, h1, h2, h3]
  · intro h
    simp [imageStep, h]
  · intro bytes extension h1 h2
    simp [imageStep, h1, h2]
  · intro bytes extension name h1 h2
    simp [imageStep, h1, h2]

/-- C7 witness: a chapter whose sole image fetch fails still completes
with `Ok`, its body and image list untouched. -/
theorem chapterTask_image_errors_isolated_witness :
    chapterTask (fun _ => Except.ok "h") (fun _ => Except.ok "body u1")
      (fun _ => ["u1"]) (fun _ => Except.error "net") (fun _ _ => Except.error "fs")
      (fun _ _ => Except.ok ()) ⟨1, "t", "u", "f", [], false⟩ =
      Except.ok ⟨1, "t", "u", "f", [], false⟩ :=
  (chapterTask_image_errors_isolated (fun _ => Except.ok "h")
    (fun _ => Except.ok "body u1") (fun _ => ["u1"]) (fun _ => Except.error "net")
    (fun _ _ => Except.error "fs") (fun _ _ => Except.ok ())
    ⟨1, "t", "u", "f", [], false⟩ "h" "body u1" "net" ("", []) "u1").1
    rfl rfl (fun _ _ => rfl)

/-- C10: in `chapters_sequential`, a page whose next-URL extraction is not
`Single` makes the loop return `Ok` (success, not an error) with only the
chapters flushed so far — the buffer as extended by that very page is
discarded unless that page's own title failed the continuation match and
flushed it; and when the loop exhausts its chapter stubs it likewise
returns `Ok` with only the flushed chapters, discarding the buffer. -/
theorem chaptersSequential_discards_buffer :
    ∀ (fetch : String → FetchOutcome) (joinUrl : String → Option String)
      (regexIsMatch : String → String → Bool) (titlePattern : String)
      (c : ChapterStub) (rest : List ChapterStub) (url buffer : String)
      (results : List String) (p : PageContent) (s : String),
    (chaptersSequentialGo fetch joinUrl regexIsMatch titlePattern [] url buffer results =
      Except.ok results) ∧
    (fetch url = FetchOutcome.page p → p.paragraphs = Value.single s →
      (∀ u, p.nextUrl ≠ Value.single u) →
      chaptersSequentialGo fetch joinUrl regexIsMatch titlePattern (c :: rest) url
          buffer results =
        Except.ok (if matchesTitle regexIsMatch titlePattern c.title (resolveTitle p c)
          then results else results ++ [buffer])) := by
  intro fetch joinUrl regexIsMatch titlePattern c rest url buffer results p s
  refine ⟨rfl, ?_⟩
  intro hf hp hn
  simp only [chaptersSequentialGo, hf, hp]
  cases hcase : p.nextUrl with
  | single u => exact absurd hcase (hn u)
  | empty => by_cases hm : matchesTitle regexIsMatch titlePattern c.title (resolveTitle p c) <;>
      simp [hm]
  | multiple vs => by_cases hm : matchesTitle regexIsMatch titlePattern c.title (resolveTitle p c) <;>
      simp [hm]

/-- C10 witness: a single-stub run whose page has an `Empty` next-URL
returns `Ok []` — the page's buffered paragraphs are discarded. -/
theorem chaptersSequential_discards_buffer_witness :
    chaptersSequentialGo
      (fun _ => FetchOutcome.page ⟨Value.single "p1", Value.empty, Value.empty⟩) some
      (fun _ t => t == "A") "^A$" [⟨"A"⟩] "u0" "" [] = Except.ok [] := by
  have h := (chaptersSequential_discards_buffer
    (fun _ => FetchOutcome.page ⟨Value.single "p1", Value.empty, Value.empty⟩) some
    (fun _ t => t == "A") "^A$" ⟨"A"⟩ [] "u0" "" []
    ⟨Value.single "p1", Value.empty, Value.empty⟩ "p1").2 rfl rfl
    (fun u h => by simp at h)
  simpa [matchesTitle, resolveTitle] using h

/-- A concrete three-page stream: pages at `u0` and `u1` carry paragraphs
`p1`/`p2` and chain on; the page at `u2` carries `p3` and has no
extractable next URL. Page titles are not extractable, so the
continuation match falls back to each chapter stub's own title. -/
def fetchThreePages : String → FetchOutcome := fun u =>
  if u = "u0" then FetchOutcome.page ⟨Value.single "p1", Value.empty, Value.single "u1"⟩
  else if u = "u1" then FetchOutcome.page ⟨Value.single "p2", Value.empty, Value.single "u2"⟩
  else if u = "u2" then FetchOutcome.page ⟨Value.single "p3", Value.empty, Value.empty⟩
  else FetchOutcome.fail "net"

/-- A regex engine for the constant pattern `^A$`: the target matches
exactly when it is `A` (the pattern argument is already compiled in). -/
def matchExactlyA : String → String → Bool := fun _ target => target == "A"

/-- C4 counterexample: the claim fails on the code. Three pages where
pages 1 and 2 continuation-match (stub titles `A`, matcher `^A$`) and
page 3 does not (stub title `C`) assemble exactly ONE chapter — the
concatenated `p1 ++ p2` — not two: page 3's content is left in the
never-flushed buffer. -/
theorem chaptersSequential_three_pages_counterexample :
    chaptersSequential fetchThreePages some matchExactlyA "^A$"
      [⟨"A"⟩, ⟨"A"⟩, ⟨"C"⟩] "u0" = Except.ok ["p1" ++ "p2"] ∧
    ["p1" ++ "p2"].length = 1 := by
  exact ⟨rfl, rfl⟩

/-- C4 amended: in sequential mode a continuation-matching title appends
the page's content to the current buffer and a non-matching title flushes
the buffer and starts a new one; for three pages where pages 1 and 2
continuation-match and page 3 does not, the result is exactly one
assembled chapter, containing page-1 and page-2 text concatenated in
order — page 3's content stays in the final buffer, which is discarded
when the next-URL extraction fails. -/
theorem chaptersSequential_three_pages_one_chapter :
    ∀ (fetch : String → FetchOutcome) (joinUrl : String → Option String)
      (regexIsMatch : String → String → Bool) (titlePattern : String)
      (c1 c2 c3 : ChapterStub) (u0 j0 u1 j1 u2 j2 : String)
      (g1 g2 g3 : PageContent) (p1 p2 p3 : String),
    joinUrl u0 = some j0 → fetch j0 = FetchOutcome.page g1 →
    g1.paragraphs = Value.single p1 → g1.nextUrl = Value.single u1 →
    matchesTitle regexIsMatch titlePattern c1.title (resolveTitle g1 c1) = true →
    joinUrl u1 = some j1 → fetch j1 = FetchOutcome.page g2 →
    g2.paragraphs = Value.single p2 → g2.nextUrl = Value.single u2 →
    matchesTitle regexIsMatch titlePattern c2.title (resolveTitle g2 c2) = true →
    joinUrl u2 = some j2 → fetch j2 = FetchOutcome.page g3 →
    g3.paragraphs = Value.single p3 → (∀ u, g3.nextUrl ≠ Value.single u) →
    matchesTitle regexIsMatch titlePattern c3.title (resolveTitle g3 c3) = false →
    chaptersSequential fetch joinUrl regexIsMatch titlePattern [c1, c2, c3] u0 =
      Except.ok [p1 ++ p2] := by
  intro fetch joinUrl regexIsMatch titlePattern c1 c2 c3 u0 j0 u1 j1 u2 j2
    g1 g2 g3 p1 p2 p3 hj0 hf1 hp1 hn1 hm1 hj1 hf2 hp2 hn2 hm2 hj2 hf3 hp3 hn3 hm3
  rw [chaptersSequential, hj0]
  simp only [chaptersSequentialGo, hf1, hp1, hm1, if_true, hn1, hj1, hf2, hp2, hm2,
    hn2, hj2, hf3, hp3, hm3, if_false]
  cases hcase : g3.nextUrl with
  | single u => exact absurd hcase (hn3 u)
  | empty => simp [String.empty_append]
  | multiple vs => simp [String.empty_append]

/-- C4 amended witness: the concrete three-page stream assembles exactly
`Ok ["p1p2"]`. -/
theorem chaptersSequential_three_pages_one_chapter_witness :
    chaptersSequential fetchThreePages some matchExactlyA "^A$"
      [⟨"A"⟩, ⟨"A"⟩, ⟨"C"⟩] "u0" = Except.ok ["p1" ++ "p2"] :=
  chaptersSequential_three_pages_one_chapter fetchThreePages some matchExactlyA "^A$"
    ⟨"A"⟩ ⟨"A"⟩ ⟨"C"⟩ "u0" "u0" "u1" "u1" "u2" "u2"
    ⟨Value.single "p1", Value.empty, Value.single "u1"⟩
    ⟨Value.single "p2", Value.empty, Value.single "u2"⟩
    ⟨Value.single "p3", Value.empty, Value.empty⟩ "p1" "p2" "p3"
    rfl rfl rfl rfl rfl rfl rfl rfl rfl rfl rfl rfl rfl (fun _ h => nomatch h) rfl

/-- The result is `Empty` or `Multiple`, never `Single`. -/
def emptyOrMultiple (v : Value) : Prop :=
  v = Value.empty ∨ ∃ vs, v = Value.multiple vs

/-- The result is `Empty` or `Single`, never `Multiple`. -/
def emptyOrSingle (v : Value) : Prop :=
  v = Value.empty ∨ ∃ s, v = Value.single s

/-- The `extract_all` wrap only ever produces `Empty` or `Multiple`. -/
theorem wrapMultiple_emptyOrMultiple (l : List String) : emptyOrMultiple (wrapMultiple l) := by
  by_cases h : l.isEmpty
  · exact Or.inl (by simp [wrapMultiple, h])
  · exact Or.inr ⟨l, by simp [wrapMultiple, h]⟩

/-- The `Combine` wrap only ever produces `Empty` or `Single`. -/
theorem wrapCombine_emptyOrSingle (separator : String) (l : List String) :
    emptyOrSingle (wrapCombine separator l) := by
  by_cases h : l.isEmpty
  · exact Or.inl (by simp [wrapCombine, h])
  · exact Or.inr ⟨String.intercalate separator l, by simp [wrapCombine, h]⟩

/-- Whether an extractor is the `Combine` variant. -/
def isCombine {σ : Type} : Extractor σ → Bool
  | Extractor.combine _ _ _ => true
  | _ => false

/-- C9: for every extractor variant except `Combine`, `extract_all` yields
only `Empty` or `Multiple` (a lone match is wrapped as a one-element
`Multiple`, never returned as `Single`); for `Combine`, both `extract`
and `extract_all` yield only `Empty` or `Single`, never `Multiple`. -/
theorem extractAll_result_shape :
    ∀ {α σ : Type} (d : Scrape α σ) (ex : Extractor σ) (element : α)
      (separator : String) (sel : σ) (item : Extractor σ),
    (isCombine ex = false → emptyOrMultiple (extractAll d ex element)) ∧
    emptyOrSingle (extract d (Extractor.combine separator sel item) element) ∧
    emptyOrSingle (extractAll d (Extractor.combine separator sel item) element) := by
  intro α σ d ex element separator sel item
  refine ⟨?_, ?_, ?_⟩
  · intro h
    cases ex with
    | attr s n =>
      simp only [extractAll, attrExtractAll]
      exact wrapMultiple_emptyOrMultiple _
    | text s =>
      simp only [extractAll, textExtractAll]
      exact wrapMultiple_emptyOrMultiple _
    | html s =>
      simp only [extractAll, htmlExtractAll]
      exact wrapMultiple_emptyOrMultiple _
    | list s i =>
      simp only [extractAll]
      exact wrapMultiple_emptyOrMultiple _
    | next s c i =>
      simp only [extractAll]
      exact wrapMultiple_emptyOrMultiple _
    | current s c i =>
      simp only [extractAll]
      exact wrapMultiple_emptyOrMultiple _
    | combine s c i => simp [isCombine] at h
    | url s n =>
      simp only [extractAll]
      exact wrapMultiple_emptyOrMultiple _
  · simp only [extract]
    exact wrapCombine_emptyOrSingle _ _
  · simp only [extractAll]
    exact wrapCombine_emptyOrSingle _ _

/-- A trivial document: no elements match anything. -/
def scrapeTrivial : Scrape Unit Unit :=
  ⟨fun _ _ => [], fun _ _ => none, fun _ => [], fun _ => "", fun _ => none,
   fun _ => none, fun _ => []⟩

/-- C9 witness: the shape invariant evaluated at a concrete non-`Combine`
extractor and a concrete `Combine` extractor. -/
theorem extractAll_result_shape_witness :
    emptyOrMultiple (extractAll scrapeTrivial (Extractor.text none) ()) ∧
    emptyOrSingle (extract scrapeTrivial (Extractor.combine "," () (Extractor.text none)) ()) :=
  ⟨(extractAll_result_shape scrapeTrivial (Extractor.text none) () "," ()
      (Extractor.text none)).1 rfl,
   (extractAll_result_shape scrapeTrivial (Extractor.text none) () "," ()
      (Extractor.text none)).2.1⟩

/-- One element whose `href` attribute is the non-URL text `hello world`;
the link finder finds no URL substring in anything. -/
def scrapeHrefHello : Scrape Unit Unit :=
  ⟨fun _ _ => [()], fun _ name => if name = "href" then some "hello world" else none,
   fun _ => [], fun _ => "", fun _ => none, fun _ => none, fun _ => []⟩

/-- C6 counterexample: the claim fails on the code for `extract_all`. With
attribute name `href` and raw value `hello world`, `Attr::extract_all`
yields `Multiple ["hello world"]`, and the claimed passthrough would keep
it — but `Url::extract_all` link-scans it to `Empty`; only `Url::extract`
passes the raw value through. -/
theorem url_extract_all_no_passthrough_counterexample :
    attrExtractAll scrapeHrefHello (some ()) "href" () = Value.multiple ["hello world"] ∧
    extractAll scrapeHrefHello (Extractor.url (some ()) "href") () = Value.empty ∧
    extract scrapeHrefHello (Extractor.url (some ()) "href") () =
      Value.single "hello world" := by
  refine ⟨rfl, ?_, ?_⟩
  · simp [extractAll, attrExtractAll, scrapeHrefHello, collectLinks, wrapMultiple]
  · simp [extract, attrExtract, scrapeHrefHello]

/-- C6 amended: `Url::extract` passes the raw attribute value through
unchanged for the structural link attributes `href` and `src`, and
otherwise link-scans the extracted text, yielding `Empty`/`Single`/
`Multiple` for 0/1/N URL matches; `Url::extract_all` never passes
through — it always link-scans, yielding `Empty` for 0 matches and
`Multiple` otherwise. -/
theorem url_extractor_link_scan :
    ∀ {α σ : Type} (d : Scrape α σ) (selector : Option σ) (name : String) (element : α)
      (u1 u2 : String) (us : List String),
    (name = "href" ∨ name = "src" →
      extract d (Extractor.url selector name) element = attrExtract d selector name element) ∧
    (¬(name = "href" ∨ name = "src") →
      extract d (Extractor.url selector name) element =
        wrapUrls (collectLinks d.findLinks (attrExtract d selector name element))) ∧
    (¬(name = "href" ∨ name = "src") →
      collectLinks d.findLinks (attrExtract d selector name element) = [] →
      extract d (Extractor.url selector name) element = Value.empty) ∧
    (¬(name = "href" ∨ name = "src") →
      collectLinks d.findLinks (attrExtract d selector name element) = [u1] →
      extract d (Extractor.url selector name) element = Value.single u1) ∧
    (¬(name = "href" ∨ name = "src") →
      collectLinks d.findLinks (attrExtract d selector name element) = u1 :: u2 :: us →
      extract d (Extractor.url selector name) element = Value.multiple (u1 :: u2 :: us)) ∧
    (extractAll d (Extractor.url selector name) element =
      wrapMultiple (collectLinks d.findLinks (attrExtractAll d selector name element))) ∧
    (collectLinks d.findLinks (attrExtractAll d selector name element) = [] →
      extractAll d (Extractor.url selector name) element = Value.empty) ∧
    (collectLinks d.findLinks (attrExtractAll d selector name element) = u1 :: us →
      extractAll d (Extractor.url selector name) element = Value.multiple (u1 :: us)) := by
  intro α σ d selector name element u1 u2 us
  refine ⟨?_, ?_, ?_, ?_, ?_, ?_, ?_, ?_⟩
  · intro h
    simp only [extract]
    rw [if_pos h]
  · intro h
    simp only [extract]
    rw [if_neg h]
  · intro h hc
    simp only [extract]
    rw [if_neg h, hc]
    rfl
  · intro h hc
    simp only [extract]
    rw [if_neg h, hc]
    rfl
  · intro h hc
    simp only [extract]
    rw [if_neg h, hc]
    rfl
  · simp only [extractAll]
  · intro hc
    simp only [extractAll]
    rw [hc]
    rfl
  · intro hc
    simp only [extractAll]
    rw [hc]
    simp [wrapMultiple]

/-- C6 amended witness: the passthrough and the scan evaluated on the
concrete `href`-carrying element. -/
theorem url_extractor_link_scan_witness :
    extract scrapeHrefHello (Extractor.url (some ()) "href") () =
      attrExtract scrapeHrefHello (some ()) "href" () ∧
    extractAll scrapeHrefHello (Extractor.url (some ()) "href") () = Value.empty :=
  ⟨(url_extractor_link_scan scrapeHrefHello (some ()) "href" () "u" "u" []).1 (Or.inl rfl),
   (url_extractor_link_scan scrapeHrefHello (some ()) "href" () "u" "u" []).2.2.2.2.2.2.1 rfl⟩
